import Mathlib

/-!
Verification development for the librdkafka statistics parser
(src/kafka_stats_parser.py).

The pipeline under study:
  raw text -> loader (JSON framing recovery) -> sort + timestamp
  deduplication -> time-series builder -> series diagnostics.

Modelling conventions:
  - Python dicts are insertion-ordered association lists with unique keys;
    dict construction from JSON key/value pairs lets a later duplicate key
    overwrite the value while keeping the first-insertion position.
  - Python floats are modelled as exact rationals (Rat); a NaN gap marker
    is the dedicated constructor PVal.nan.
  - The standard-library JSON decoder (json.loads / JSONDecoder.raw_decode)
    is modelled by an executable recursive-descent decoder over the JSON
    fragment the telemetry schema uses (objects, arrays, strings with
    simple escapes, integers, and the three literals).  Python strings are
    lists of characters; slicing, lstrip and len are the list operations.
-/

/-- A decoded JSON value.  Objects carry their key/value pairs in Python
dict order: first-insertion position, later duplicate key wins. -/
inductive Json where
  | null
  | jbool (b : Bool)
  | jnum (n : Int)
  | jstr (s : String)
  | jarr (xs : List Json)
  | jobj (kvs : List (String × Json))
deriving Repr

/-- Python str.lstrip character class (whitespace). -/
def pyWsB (c : Char) : Bool :=
  c == ' ' || c == '\t' || c == '\n' || c == '\r' || c == '\x0b' || c == '\x0c'

/-- Python content.lstrip() on the character-list view of a string. -/
def lstrip (cs : List Char) : List Char := cs.dropWhile pyWsB

/-- JSON inter-token whitespace (the json module's WHITESPACE class). -/
def jsonWsB (c : Char) : Bool :=
  c == ' ' || c == '\t' || c == '\n' || c == '\r'

def skipWs (cs : List Char) : List Char := cs.dropWhile jsonWsB

/-- Decode the body of a JSON string after the opening quote, handling the
single-character escapes; returns the string and the input after the
closing quote. -/
def parseStringBody : List Char → Option (String × List Char)
  | [] => none
  | '\\' :: c :: rest =>
    (match c with
     | '"' => some '"' | '\\' => some '\\' | '/' => some '/'
     | 'b' => some (Char.ofNat 8) | 'f' => some (Char.ofNat 12)
     | 'n' => some '\n' | 'r' => some '\r' | 't' => some '\t'
     | _ => none).bind
      (fun ch => (parseStringBody rest).map
        (fun p : String × List Char => (String.mk (ch :: p.1.data), p.2)))
  | '"' :: rest => some (String.mk [], rest)
  | c :: rest =>
    (parseStringBody rest).map
      (fun p : String × List Char => (String.mk (c :: p.1.data), p.2))

/-- Decode a maximal run of decimal digits into a natural number. -/
def parseDigits (cs : List Char) : Option (Nat × List Char) :=
  let ds := cs.takeWhile Char.isDigit
  if ds.isEmpty then none
  else some (ds.foldl (fun acc c => acc * 10 + (c.toNat - 48)) 0, cs.drop ds.length)

/-- Python dict insertion: a duplicate key keeps its first position and
takes the new value; a fresh key is appended. -/
def dictInsert (k : String) (v : Json) : List (String × Json) → List (String × Json)
  | [] => [(k, v)]
  | p :: rest => if p.1 = k then (p.1, v) :: rest else p :: dictInsert k v rest

/-- Build a Python dict from JSON object members in source order. -/
def dictNorm (l : List (String × Json)) : List (String × Json) :=
  l.foldl (fun acc p => dictInsert p.1 p.2 acc) []

mutual

/-- Decode one JSON value at the head of the input (no leading whitespace
allowed), as JSONDecoder.raw_decode does.  Fuel bounds the nesting; every
recursive step consumes at least one input character, so fuel equal to the
input length is always enough. -/
def parseVal : Nat → List Char → Option (Json × List Char)
  | 0, _ => none
  | f+1, cs =>
    match cs with
    | '\x7b' :: rest => parseObjLoop f (skipWs rest) [] true
    | '[' :: rest => parseArrLoop f (skipWs rest) [] true
    | '"' :: rest => (parseStringBody rest).map
        (fun p : String × List Char => (Json.jstr p.1, p.2))
    | 't' :: 'r' :: 'u' :: 'e' :: rest => some (Json.jbool true, rest)
    | 'f' :: 'a' :: 'l' :: 's' :: 'e' :: rest => some (Json.jbool false, rest)
    | 'n' :: 'u' :: 'l' :: 'l' :: rest => some (Json.null, rest)
    | '-' :: rest => (parseDigits rest).map
        (fun p : Nat × List Char => (Json.jnum (-(p.1 : Int)), p.2))
    | c :: rest =>
      if c.isDigit then
        (parseDigits (c :: rest)).map
          (fun p : Nat × List Char => (Json.jnum (p.1 : Int), p.2))
      else none
    | [] => none

/-- Array elements after the opening bracket; the flag is true only before
the first element (allowing the empty array). -/
def parseArrLoop : Nat → List Char → List Json → Bool → Option (Json × List Char)
  | 0, _, _, _ => none
  | _+1, ']' :: rest, acc, true => some (Json.jarr acc.reverse, rest)
  | f+1, cs, acc, _ =>
    match parseVal f cs with
    | none => none
    | some (v, r) =>
      match skipWs r with
      | ',' :: r2 => parseArrLoop f (skipWs r2) (v :: acc) false
      | ']' :: r2 => some (Json.jarr (v :: acc).reverse, r2)
      | _ => none

/-- Object members after the opening brace; the flag is true only before
the first member (allowing the empty object). -/
def parseObjLoop : Nat → List Char → List (String × Json) → Bool → Option (Json × List Char)
  | 0, _, _, _ => none
  | _+1, '\x7d' :: rest, acc, true => some (Json.jobj (dictNorm acc.reverse), rest)
  | f+1, '"' :: cs, acc, _ =>
    match parseStringBody cs with
    | none => none
    | some (k, r) =>
      match skipWs r with
      | ':' :: r2 =>
        match parseVal f (skipWs r2) with
        | none => none
        | some (v, r3) =>
          match skipWs r3 with
          | ',' :: r4 => parseObjLoop f (skipWs r4) ((k, v) :: acc) false
          | '\x7d' :: r4 => some (Json.jobj (dictNorm ((k, v) :: acc).reverse), r4)
          | _ => none
      | _ => none
  | _, _, _, _ => none

end

/-- JSONDecoder().raw_decode: decode one complete JSON value at the start
of the input, returning the value and the number of characters consumed. -/
def rawDecode (cs : List Char) : Option (Json × Nat) :=
  (parseVal (cs.length + 1) cs).map
    (fun p : Json × List Char => (p.1, cs.length - p.2.length))

/-- json.loads: the whole input (up to surrounding whitespace) must be one
JSON value. -/
def loads (cs : List Char) : Option Json :=
  match parseVal (cs.length + 1) (skipWs cs) with
  | some (j, rest) => if (skipWs rest).isEmpty then some j else none
  | none => none

/-- The fallback extraction loop of _load_stats (source lines 197-206):
starting at offset pos, repeatedly lstrip and raw_decode the next complete
JSON value, advancing past it; stop at end of input, at an all-whitespace
tail, or at the first decode failure, returning everything collected. -/
def extractLoop (content : List Char) : Nat → Nat → List Json
  | 0, _ => []
  | f+1, pos =>
    if pos < content.length then
      let stripped := lstrip (content.drop pos)
      if stripped.isEmpty then []
      else
        match rawDecode stripped with
        | none => []
        | some (obj, readLen) =>
          obj :: extractLoop content f (pos + (stripped.length - (stripped.drop readLen).length))
    else []

/-- The parse stage of _load_stats (source lines 184-206): try the whole
input as a single JSON value (an array contributes each element, any other
value contributes itself); on failure fall back to sequential extraction. -/
def parse_stage (content : List Char) : List Json :=
  match loads content with
  | some (Json.jarr xs) => xs
  | some j => [j]
  | none => extractLoop content (content.length + 1) 0

/-- Field access data.get(k) on a JSON object (absent or non-object gives
Python None, modelled as none). -/
def Json.getKey : Json → String → Option Json
  | .jobj kvs, k => (kvs.find? (fun p => decide (p.1 = k))).map Prod.snd
  | _, _ => none

/-- An integer-valued field, or none when absent (data.get(k)). -/
def jInt? (o : Option Json) : Option Int :=
  match o with
  | some (.jnum n) => some n
  | _ => none

/-- A string-valued field, or none when absent (data.get(k)). -/
def jStr? (o : Option Json) : Option String :=
  match o with
  | some (.jstr s) => some s
  | _ => none

/-- An integer-valued field with a default (data.get(k, d)). -/
def jIntD (o : Option Json) (d : Int) : Int :=
  match o with
  | some (.jnum n) => n
  | _ => d

/-- BrokerStats: the typed view over one broker's statistics dictionary
(source lines 80-93). -/
structure BrokerStats where
  name : Option String
  source : Option String
  state : Option String
  connects : Int
  disconnects : Int
  rxbytes : Int
  txbytes : Int
  rxerrs : Int
  txerrs : Int
  req_timeouts : Int
  rtt_avg : Option Int
  throttle_avg : Option Int
deriving DecidableEq, Repr

def BrokerStats.ofJson (j : Json) : BrokerStats :=
  { name := jStr? (j.getKey ("name"))
    source := jStr? (j.getKey ("source"))
    state := jStr? (j.getKey ("state"))
    connects := jIntD (j.getKey ("connects")) 0
    disconnects := jIntD (j.getKey ("disconnects")) 0
    rxbytes := jIntD (j.getKey ("rxbytes")) 0
    txbytes := jIntD (j.getKey ("txbytes")) 0
    rxerrs := jIntD (j.getKey ("rxerrs")) 0
    txerrs := jIntD (j.getKey ("txerrs")) 0
    req_timeouts := jIntD (j.getKey ("req_timeouts")) 0
    rtt_avg := jInt? ((j.getKey ("rtt")).bind (fun r => r.getKey ("avg")))
    throttle_avg := jInt? ((j.getKey ("throttle")).bind (fun r => r.getKey ("avg"))) }

/-- PartitionStats: the typed view over one partition's statistics
dictionary, with the sentinel defaults of source lines 134-142. -/
structure PartitionStats where
  partition : Option Int
  leader : Option Int
  consumer_lag : Int
  consumer_lag_stored : Int
  committed_offset : Int
  stored_offset : Int
  committed_leader_epoch : Int
deriving DecidableEq, Repr

def PartitionStats.ofJson (j : Json) : PartitionStats :=
  { partition := jInt? (j.getKey ("partition"))
    leader := jInt? (j.getKey ("leader"))
    consumer_lag := jIntD (j.getKey ("consumer_lag")) (-1)
    consumer_lag_stored := jIntD (j.getKey ("consumer_lag_stored")) (-1)
    committed_offset := jIntD (j.getKey ("committed_offset")) (-1001)
    stored_offset := jIntD (j.getKey ("stored_offset")) (-1001)
    committed_leader_epoch := jIntD (j.getKey ("committed_leader_epoch")) (-1) }

/-- TopicStats: topic name plus the partition-id -> PartitionStats dict
(source lines 108-111). -/
structure TopicStats where
  topic : Option String
  partitions : List (String × PartitionStats)
deriving DecidableEq, Repr

def TopicStats.ofJson (j : Json) : TopicStats :=
  { topic := jStr? (j.getKey ("topic"))
    partitions :=
      match j.getKey ("partitions") with
      | some (.jobj kvs) => kvs.map (fun p => (p.1, PartitionStats.ofJson p.2))
      | _ => [] }

/-- RdKafkaStats: one statistics snapshot (source lines 49-55).  The field
named type in the source is called type here as well.  RdKafkaStats.ofJson
below is the total view for object records; the fallible
RdKafkaStats.ofJson? is the faithful constructor that also models the
AttributeError raised when .get or .items() is called on a non-dict. -/
structure RdKafkaStats where
  ts : Option Int
  time : Option Int
  type : Option String
  brokers : List (String × BrokerStats)
  topics : List (String × TopicStats)
deriving DecidableEq, Repr

def RdKafkaStats.ofJson (j : Json) : RdKafkaStats :=
  { ts := jInt? (j.getKey ("ts"))
    time := jInt? (j.getKey ("time"))
    type := jStr? (j.getKey ("type"))
    brokers :=
      match j.getKey ("brokers") with
      | some (.jobj kvs) => kvs.map (fun p => (p.1, BrokerStats.ofJson p.2))
      | _ => []
    topics :=
      match j.getKey ("topics") with
      | some (.jobj kvs) => kvs.map (fun p => (p.1, TopicStats.ofJson p.2))
      | _ => [] }

/-- Dict lookup (k in d, d[k]) on an insertion-ordered association list. -/
def assocFind {κ β : Type} [DecidableEq κ] (k : κ) : List (κ × β) → Option β
  | [] => none
  | p :: rest => if p.1 = k then some p.2 else assocFind k rest

/-- In-place update of the entry for key k (Python mutates the stored
object, keeping its dict position). -/
def assocUpdate {κ β : Type} [DecidableEq κ] (k : κ) (f : β → β) : List (κ × β) → List (κ × β)
  | [] => []
  | p :: rest => if p.1 = k then (p.1, f p.2) :: rest else p :: assocUpdate k f rest

/-- Merge the partitions of a same-named topic from a duplicate-timestamp
record: only partition ids missing from the anchor are added (source lines
229-231), appended in dict-insertion order. -/
def mergePartitions (ex new : List (String × PartitionStats)) : List (String × PartitionStats) :=
  new.foldl (fun acc p => if (assocFind p.1 acc).isSome then acc else acc ++ [p]) ex

def mergeTopicStats (ex new : TopicStats) : TopicStats :=
  { ex with partitions := mergePartitions ex.partitions new.partitions }

/-- Merge the topics dict of a duplicate-timestamp record into the anchor:
missing topics are added whole; shared topics get their missing partitions
added (source lines 224-231). -/
def mergeTopics (ex new : List (String × TopicStats)) : List (String × TopicStats) :=
  new.foldl
    (fun acc p =>
      match assocFind p.1 acc with
      | none => acc ++ [p]
      | some _ => assocUpdate p.1 (fun t => mergeTopicStats t p.2) acc)
    ex

/-- Merge the brokers dict of a duplicate-timestamp record into the anchor:
only missing broker ids are added (source lines 233-235). -/
def mergeBrokers (ex new : List (String × BrokerStats)) : List (String × BrokerStats) :=
  new.foldl (fun acc p => if (assocFind p.1 acc).isSome then acc else acc ++ [p]) ex

/-- Merge a later same-timestamp snapshot into the anchor snapshot
(source lines 222-235): the anchor's scalar fields and conflicting entries
always win. -/
def mergeStats (existing stat : RdKafkaStats) : RdKafkaStats :=
  { existing with
    topics := mergeTopics existing.topics stat.topics
    brokers := mergeBrokers existing.brokers stat.brokers }

/-- The seen_timestamps loop of _load_stats (source lines 217-237): walk
the (ts-sorted) history; a snapshot with no time is skipped; the first
snapshot for a time becomes the anchor; later ones merge into it. -/
def dedupFold : List RdKafkaStats → List (Int × RdKafkaStats) → List (Int × RdKafkaStats)
  | [], seen => seen
  | s :: rest, seen =>
    match s.time with
    | none => dedupFold rest seen
    | some t =>
      match assocFind t seen with
      | some _ => dedupFold rest (assocUpdate t (fun ex => mergeStats ex s) seen)
      | none => dedupFold rest (seen ++ [(t, s)])

/-- Sort key ts (microseconds), missing sorts as 0 (source line 212). -/
def tsLe (a b : RdKafkaStats) : Prop := a.ts.getD 0 ≤ b.ts.getD 0

/-- Sort key time (seconds), missing sorts as 0 (source line 240). -/
def timeLe (a b : RdKafkaStats) : Prop := a.time.getD 0 ≤ b.time.getD 0

/-- Strict version of the time ordering, used to state sortedness together
with timestamp uniqueness. -/
def timeLt (a b : RdKafkaStats) : Prop := a.time.getD 0 < b.time.getD 0

instance : DecidableRel tsLe := fun a b => Int.decLe (a.ts.getD 0) (b.ts.getD 0)
instance : DecidableRel timeLe := fun a b => Int.decLe (a.time.getD 0) (b.time.getD 0)
instance : DecidableRel timeLt := fun a b => Int.decLt (a.time.getD 0) (b.time.getD 0)
instance : IsTotal RdKafkaStats tsLe := ⟨fun a b => Int.le_total (a.ts.getD 0) (b.ts.getD 0)⟩
instance : IsTrans RdKafkaStats tsLe := ⟨fun _ _ _ hab hbc => le_trans hab hbc⟩
instance : IsTotal RdKafkaStats timeLe := ⟨fun a b => Int.le_total (a.time.getD 0) (b.time.getD 0)⟩
instance : IsTrans RdKafkaStats timeLe := ⟨fun _ _ _ hab hbc => le_trans hab hbc⟩
instance : IsAntisymm RdKafkaStats timeLt := ⟨fun _ _ h1 h2 => absurd h1 (lt_asymm h2)⟩

/-- history.sort(key = ts or 0): Python's sort is stable, modelled by the
stable insertion sort. -/
def sortByTs (l : List RdKafkaStats) : List RdKafkaStats := List.insertionSort tsLe l

/-- Sort-and-deduplicate (source lines 211-245): sort by ts, fold duplicate
times into their anchors, then re-sort the anchors by time ascending. -/
def sort_and_dedup (history : List RdKafkaStats) : List RdKafkaStats :=
  List.insertionSort timeLe ((dedupFold (sortByTs history) []).map Prod.snd)

/-- The full _load_stats pipeline on raw file content (excluding file I/O):
recover raw JSON objects, view them as snapshots, sort and deduplicate. -/
def load_stats (content : List Char) : List RdKafkaStats :=
  sort_and_dedup ((parse_stage content).map RdKafkaStats.ofJson)

/-!
Crash-aware snapshot construction.  RdKafkaStats.__init__ and the nested
constructors call .get and .items() on the raw values (source lines 49-55,
80-93, 108-111, 134-142); when such a value is not a dict, Python raises
AttributeError, which no handler in _load_stats catches, so the loader
crashes and returns nothing.  The fallible constructors below return none
exactly on those crash paths.
-/

/-- Append-style traversal: the Python loops append converted entries one
by one, and the first crash aborts the whole call with nothing kept. -/
def optTraverse {α β : Type} (f : α → Option β) : List α → Option (List β)
  | [] => some []
  | a :: rest =>
    match f a with
    | none => none
    | some b => (optTraverse f rest).map (fun bs => b :: bs)

/-- data.get(k, {}).items(): absent defaults to the empty dict, a
present dict yields its pairs, a present non-dict raises. -/
def jObjKVs? (o : Option Json) : Option (List (String × Json)) :=
  match o with
  | none => some []
  | some (.jobj kvs) => some kvs
  | some _ => none

/-- data.get(k, {}).get(avg) for the rtt/throttle sub-dicts: absent
gives None, a present dict gives its avg field, a present non-dict
raises. -/
def jAvg? (o : Option Json) : Option (Option Int) :=
  match o with
  | none => some none
  | some (.jobj kvs) => some (jInt? ((Json.jobj kvs).getKey ("avg")))
  | some _ => none

/-- BrokerStats(bdata) (source lines 80-93): raises unless bdata is a dict
and any present rtt/throttle value is a dict. -/
def BrokerStats.ofJson? (j : Json) : Option BrokerStats :=
  match j with
  | .jobj _ =>
    match jAvg? (j.getKey ("rtt")), jAvg? (j.getKey ("throttle")) with
    | some r, some th =>
      some { name := jStr? (j.getKey ("name"))
             source := jStr? (j.getKey ("source"))
             state := jStr? (j.getKey ("state"))
             connects := jIntD (j.getKey ("connects")) 0
             disconnects := jIntD (j.getKey ("disconnects")) 0
             rxbytes := jIntD (j.getKey ("rxbytes")) 0
             txbytes := jIntD (j.getKey ("txbytes")) 0
             rxerrs := jIntD (j.getKey ("rxerrs")) 0
             txerrs := jIntD (j.getKey ("txerrs")) 0
             req_timeouts := jIntD (j.getKey ("req_timeouts")) 0
             rtt_avg := r
             throttle_avg := th }
    | _, _ => none
  | _ => none

/-- PartitionStats(pdata) (source lines 134-142): raises unless pdata is a
dict; all its .get calls carry scalar defaults and never raise on one. -/
def PartitionStats.ofJson? (j : Json) : Option PartitionStats :=
  match j with
  | .jobj _ => some (PartitionStats.ofJson j)
  | _ => none

/-- TopicStats(tdata) (source lines 108-111): raises unless tdata is a
dict, any present partitions value is a dict, and every partition entry
converts. -/
def TopicStats.ofJson? (j : Json) : Option TopicStats :=
  match j with
  | .jobj _ =>
    match jObjKVs? (j.getKey ("partitions")) with
    | some kvs =>
      (optTraverse (fun p => (PartitionStats.ofJson? p.2).map (fun ps => (p.1, ps))) kvs).map
        (fun parts => { topic := jStr? (j.getKey ("topic")), partitions := parts })
    | none => none
  | _ => none

/-- RdKafkaStats(data) (source lines 49-55): data.get(ts) raises unless
data is a dict, and the brokers/topics comprehensions raise on any
non-dict value inside. -/
def RdKafkaStats.ofJson? (j : Json) : Option RdKafkaStats :=
  match j with
  | .jobj _ =>
    match jObjKVs? (j.getKey ("brokers")), jObjKVs? (j.getKey ("topics")) with
    | some bkvs, some tkvs =>
      match optTraverse (fun p => (BrokerStats.ofJson? p.2).map (fun b => (p.1, b))) bkvs,
            optTraverse (fun p => (TopicStats.ofJson? p.2).map (fun t => (p.1, t))) tkvs with
      | some bs, some tps =>
        some { ts := jInt? (j.getKey ("ts"))
               time := jInt? (j.getKey ("time"))
               type := jStr? (j.getKey ("type"))
               brokers := bs
               topics := tps }
      | _, _ => none
    | _, _ => none
  | _ => none

/-- The fallback extraction loop with snapshot construction inlined as in
the source (lines 197-206, history.append(RdKafkaStats(obj)) inside the
try): the loop stops quietly at end of input, an all-whitespace tail or a
decode failure, but a decoded non-dict value raises out of the loop and
nothing collected survives (none). -/
def extractSnapshots (content : List Char) : Nat → Nat → Option (List RdKafkaStats)
  | 0, _ => some []
  | f+1, pos =>
    if pos < content.length then
      let stripped := lstrip (content.drop pos)
      if stripped.isEmpty then some []
      else
        match rawDecode stripped with
        | none => some []
        | some (obj, readLen) =>
          match RdKafkaStats.ofJson? obj with
          | none => none
          | some s =>
            (extractSnapshots content f
                (pos + (stripped.length - (stripped.drop readLen).length))).map
              (fun rest => s :: rest)
    else some []

/-- The raw-history recovery of _load_stats (source lines 184-206) with
the crash paths kept: none models the uncaught AttributeError that
escapes _load_stats when a decoded value is not a dict. -/
def load_history (content : List Char) : Option (List RdKafkaStats) :=
  match loads content with
  | some (Json.jarr xs) => optTraverse RdKafkaStats.ofJson? xs
  | some j => (RdKafkaStats.ofJson? j).map (fun s => [s])
  | none => extractSnapshots content (content.length + 1) 0

/-- One point of a plotted series: either the NaN gap marker or a numeric
value (Python floats modelled as exact rationals). -/
inductive PVal where
  | nan
  | num (q : Rat)
deriving DecidableEq, Repr

/-- The snapshots that carry a timestamp (source line 299). -/
def plottable (h : List RdKafkaStats) : List RdKafkaStats :=
  h.filter (fun s => s.time.isSome)

/-- stats.brokers.get(b_key). -/
def brokerLookup (bk : String) (s : RdKafkaStats) : Option BrokerStats :=
  assocFind bk s.brokers

/-- The universe of broker ids across all snapshots, excluding logical
entries (source lines 303-306); the snapshot/dict discovery order stands in
for Python's unordered set, and no property proved here depends on it. -/
def all_broker_keys (pl : List RdKafkaStats) : List String :=
  (pl.foldl
    (fun acc s =>
      acc ++ (s.brokers.filter
        (fun p => decide (p.2.source ≠ some ("logical")))).map Prod.fst)
    []).foldl (fun acc k => if k ∈ acc then acc else acc ++ [k]) []

/-- The universe of topic names across all snapshots (source lines 307-308). -/
def all_topic_keys (pl : List RdKafkaStats) : List String :=
  (pl.foldl (fun acc s => acc ++ s.topics.map Prod.fst) []).foldl
    (fun acc k => if k ∈ acc then acc else acc ++ [k]) []

/-- The universe of topic-partition keys t-p across all snapshots,
excluding partition -1 (source lines 309-310). -/
def all_partition_keys (pl : List RdKafkaStats) : List String :=
  (pl.foldl
    (fun acc s =>
      acc ++ s.topics.foldl
        (fun acc2 tp =>
          acc2 ++ (tp.2.partitions.filter
            (fun pp => decide (pp.2.partition ≠ some (-1)))).map
              (fun pp => tp.1 ++ "-" ++ pp.1))
        [])
    []).foldl (fun acc k => if k ∈ acc then acc else acc ++ [k]) []

/-- Broker RTT in milliseconds, gap when the broker or the value is absent
(source line 330). -/
def rttAt (bk : String) (s : RdKafkaStats) : PVal :=
  match brokerLookup bk s with
  | some b =>
    match b.rtt_avg with
    | some r => .num ((r : Rat) / 1000)
    | none => .nan
  | none => .nan

/-- Broker state ordinal via state_map, gap for unknown states or an absent
broker (source lines 320 and 331). -/
def stateAt (bk : String) (s : RdKafkaStats) : PVal :=
  match brokerLookup bk s with
  | some b =>
    match b.state with
    | some st =>
      if st = ("UP") then .num 1
      else if st = ("INIT") then .num 0
      else if st = ("DOWN") then .num (-1)
      else .nan
    | none => .nan
  | none => .nan

/-- Broker throttle in milliseconds, gap when absent (source line 332). -/
def throttleAt (bk : String) (s : RdKafkaStats) : PVal :=
  match brokerLookup bk s with
  | some b =>
    match b.throttle_avg with
    | some r => .num ((r : Rat) / 1000)
    | none => .nan
  | none => .nan

/-- Cumulative connects, gap when the broker is absent (source line 333). -/
def connectsAt (bk : String) (s : RdKafkaStats) : PVal :=
  match brokerLookup bk s with
  | some b => .num (b.connects : Rat)
  | none => .nan

/-- Cumulative disconnects, gap when absent (source line 334). -/
def disconnectsAt (bk : String) (s : RdKafkaStats) : PVal :=
  match brokerLookup bk s with
  | some b => .num (b.disconnects : Rat)
  | none => .nan

/-- Cumulative receive errors, gap when absent (source line 335). -/
def rxerrsAt (bk : String) (s : RdKafkaStats) : PVal :=
  match brokerLookup bk s with
  | some b => .num (b.rxerrs : Rat)
  | none => .nan

/-- Cumulative transmit errors, gap when absent (source line 336). -/
def txerrsAt (bk : String) (s : RdKafkaStats) : PVal :=
  match brokerLookup bk s with
  | some b => .num (b.txerrs : Rat)
  | none => .nan

def rtt_series (bk : String) (pl : List RdKafkaStats) : List PVal := pl.map (rttAt bk)
def state_series (bk : String) (pl : List RdKafkaStats) : List PVal := pl.map (stateAt bk)
def throttle_series (bk : String) (pl : List RdKafkaStats) : List PVal := pl.map (throttleAt bk)
def connects_series (bk : String) (pl : List RdKafkaStats) : List PVal := pl.map (connectsAt bk)
def disconnects_series (bk : String) (pl : List RdKafkaStats) : List PVal := pl.map (disconnectsAt bk)
def rxerrs_series (bk : String) (pl : List RdKafkaStats) : List PVal := pl.map (rxerrsAt bk)
def txerrs_series (bk : String) (pl : List RdKafkaStats) : List PVal := pl.map (txerrsAt bk)

/-- Elapsed seconds used as the rate divisor for one step (source line
324): the gap since the previous snapshot when last_time is truthy
(non-zero) and time strictly advanced, otherwise 1. -/
def timeDeltaStep (lastTime t : Int) : Int :=
  if lastTime ≠ 0 ∧ lastTime < t then t - lastTime else 1

/-- The RX-rate recursion (source lines 338-342): per snapshot, the
cumulative counter is the broker's rxbytes (0 when the broker is absent);
delta is current - previous only when a previous value exists and
current >= previous, else 0; the appended value is
delta / time_delta / (1024*1024). -/
def rx_rate_aux (bk : String) : Option Int → Int → List RdKafkaStats → List PVal
  | _, _, [] => []
  | lastRx, lastTime, s :: rest =>
    let t := s.time.getD 0
    let td := timeDeltaStep lastTime t
    let current : Int :=
      match brokerLookup bk s with
      | some b => b.rxbytes
      | none => 0
    let delta : Int :=
      match lastRx with
      | some prev => if prev ≤ current then current - prev else 0
      | none => 0
    .num ((delta : Rat) / (td : Rat) / (1024 * 1024)) :: rx_rate_aux bk (some current) t rest

/-- The TX-rate recursion (source lines 344-348), same shape over txbytes. -/
def tx_rate_aux (bk : String) : Option Int → Int → List RdKafkaStats → List PVal
  | _, _, [] => []
  | lastTx, lastTime, s :: rest =>
    let t := s.time.getD 0
    let td := timeDeltaStep lastTime t
    let current : Int :=
      match brokerLookup bk s with
      | some b => b.txbytes
      | none => 0
    let delta : Int :=
      match lastTx with
      | some prev => if prev ≤ current then current - prev else 0
      | none => 0
    .num ((delta : Rat) / (td : Rat) / (1024 * 1024)) :: tx_rate_aux bk (some current) t rest

/-- last_time starts at the first plottable snapshot's time (source line
319), so the first step's divisor is 1; last_rxbytes starts as None. -/
def rx_rate_series (bk : String) (pl : List RdKafkaStats) : List PVal :=
  rx_rate_aux bk none
    (match pl with
     | [] => 0
     | s :: _ => s.time.getD 0) pl

def tx_rate_series (bk : String) (pl : List RdKafkaStats) : List PVal :=
  tx_rate_aux bk none
    (match pl with
     | [] => 0
     | s :: _ => s.time.getD 0) pl

/-- p_key.rsplit(-, 1): split a topic-partition key at its last dash. -/
def rsplitDash (s : String) : String × String :=
  match s.data.reverse.dropWhile (fun c => decide (c ≠ '-')) with
  | '-' :: restRev =>
    (String.mk restRev.reverse,
     String.mk ((s.data.reverse.takeWhile (fun c => decide (c ≠ '-'))).reverse))
  | _ => (s, s)

/-- Look up the partition referenced by a topic-partition key in one
snapshot (source lines 352-355). -/
def partAt (tk pk : String) (s : RdKafkaStats) : Option PartitionStats :=
  match assocFind tk s.topics with
  | some topic => assocFind (rsplitDash pk).2 topic.partitions
  | none => none

/-- Consumer lag, verbatim including sentinels, gap when the partition is
absent (source line 358). -/
def lagAt (tk pk : String) (s : RdKafkaStats) : PVal :=
  match partAt tk pk s with
  | some p => .num (p.consumer_lag : Rat)
  | none => .nan

def lagStoredAt (tk pk : String) (s : RdKafkaStats) : PVal :=
  match partAt tk pk s with
  | some p => .num (p.consumer_lag_stored : Rat)
  | none => .nan

def committedAt (tk pk : String) (s : RdKafkaStats) : PVal :=
  match partAt tk pk s with
  | some p => .num (p.committed_offset : Rat)
  | none => .nan

def storedAt (tk pk : String) (s : RdKafkaStats) : PVal :=
  match partAt tk pk s with
  | some p => .num (p.stored_offset : Rat)
  | none => .nan

def leaderEpochAt (tk pk : String) (s : RdKafkaStats) : PVal :=
  match partAt tk pk s with
  | some p => .num (p.committed_leader_epoch : Rat)
  | none => .nan

def lag_series (tk pk : String) (pl : List RdKafkaStats) : List PVal := pl.map (lagAt tk pk)
def lag_stored_series (tk pk : String) (pl : List RdKafkaStats) : List PVal := pl.map (lagStoredAt tk pk)
def committed_series (tk pk : String) (pl : List RdKafkaStats) : List PVal := pl.map (committedAt tk pk)
def stored_series (tk pk : String) (pl : List RdKafkaStats) : List PVal := pl.map (storedAt tk pk)
def leader_epoch_series (tk pk : String) (pl : List RdKafkaStats) : List PVal := pl.map (leaderEpochAt tk pk)

/-- The last valid (non-None, non--1) leader id seen over the snapshots
(source lines 363-365). -/
def leader_last (tk pk : String) (pl : List RdKafkaStats) : Option Int :=
  pl.foldl
    (fun acc s =>
      match partAt tk pk s with
      | some p =>
        match p.leader with
        | some l => if l ≠ -1 then some l else acc
        | none => acc
      | none => acc)
    none

/-- The per-broker time series of the normalized bundle (source line 315).
The last_rxbytes/last_txbytes loop state is internal to the rate series. -/
structure BrokerSeries where
  rtt : List PVal
  state : List PVal
  throttle : List PVal
  connects : List PVal
  disconnects : List PVal
  rx_rate : List PVal
  tx_rate : List PVal
  rxerrs : List PVal
  txerrs : List PVal
deriving DecidableEq, Repr

def mkBrokerSeries (bk : String) (pl : List RdKafkaStats) : BrokerSeries :=
  { rtt := rtt_series bk pl
    state := state_series bk pl
    throttle := throttle_series bk pl
    connects := connects_series bk pl
    disconnects := disconnects_series bk pl
    rx_rate := rx_rate_series bk pl
    tx_rate := tx_rate_series bk pl
    rxerrs := rxerrs_series bk pl
    txerrs := txerrs_series bk pl }

/-- The per-partition time series of the normalized bundle (source line
316). -/
structure PartSeries where
  lag : List PVal
  lag_stored : List PVal
  committed : List PVal
  stored : List PVal
  leader_epoch : List PVal
  leader_lastv : Option Int
deriving DecidableEq, Repr

def mkPartSeries (tk pk : String) (pl : List RdKafkaStats) : PartSeries :=
  { lag := lag_series tk pk pl
    lag_stored := lag_stored_series tk pk pl
    committed := committed_series tk pk pl
    stored := stored_series tk pk pl
    leader_epoch := leader_epoch_series tk pk pl
    leader_lastv := leader_last tk pk pl }

/-- The normalized time-series bundle returned by _get_time_series_data. -/
structure Bundle where
  timestamps : List Int
  client_type : Option String
  brokers : List (String × BrokerSeries)
  topics : List (String × List (String × PartSeries))
deriving DecidableEq, Repr

/-- _get_time_series_data (source lines 280-367): None on fewer than two
snapshots, otherwise the aligned per-entity series over the timestamped
snapshots.  Timestamps stay in epoch seconds (datetime.fromtimestamp is a
presentation detail). -/
def get_time_series_data (h : List RdKafkaStats) : Option Bundle :=
  if h.length < 2 then none
  else
    let pl := plottable h
    some
      { timestamps := pl.map (fun s => s.time.getD 0)
        client_type :=
          match pl with
          | [] => some ("unknown")
          | s :: _ => s.type
        brokers := (all_broker_keys pl).map (fun bk => (bk, mkBrokerSeries bk pl))
        topics :=
          (all_topic_keys pl).map
            (fun tk =>
              (tk, ((all_partition_keys pl).filter (fun pk => tk.isPrefixOf pk)).map
                (fun pk => (pk, mkPartSeries tk pk pl)))) }

/-- A sentinel point: compares equal to -1 or to -1001 (source line 447);
the NaN gap marker compares unequal to every number, as in Python. -/
def isSentinelB (v : PVal) : Bool :=
  decide (v = PVal.num (-1)) || decide (v = PVal.num (-1001))

/-- A valid point: not None, not NaN, and not a sentinel (source line 449). -/
def validPointB (v : PVal) : Bool :=
  match v with
  | .nan => false
  | .num q => decide (q ≠ -1) && decide (q ≠ -1001)

/-- The indices enumerate produces for the valid points (source line 449). -/
def valid_idx_from (i : Nat) : List PVal → List Nat
  | [] => []
  | v :: rest =>
    if validPointB v then i :: valid_idx_from (i + 1) rest
    else valid_idx_from (i + 1) rest

def valid_idx (values : List PVal) : List Nat := valid_idx_from 0 values

/-- np.allclose with its default tolerances rtol=1e-05 and atol=1e-08:
absolute(a - b) <= atol + rtol * absolute(b) (source line 454). -/
def allcloseB (a b : Rat) : Bool :=
  decide (|a - b| ≤ 1 / 100000000 + (1 / 100000) * |b|)

/-- The per-series statistics record of _series_stats (source lines
443-476). -/
structure SeriesStat where
  total : Nat
  valid : Nat
  first_idx : Option Nat
  last_idx : Option Nat
  min : Option Rat
  max : Option Rat
  constant : Option Bool
  not_assigned : Nat
deriving DecidableEq, Repr

/-- The body of the _series_stats loop for one series (source lines
444-475).  The values at the valid indices are the valid-point filter of
the series. -/
def series_stats (values : List PVal) : SeriesStat :=
  let total := values.length
  let not_assigned_count := values.countP isSentinelB
  let vi := valid_idx values
  if vi.isEmpty then
    { total := total
      valid := 0
      first_idx := none
      last_idx := none
      min := none
      max := none
      constant := none
      not_assigned := not_assigned_count }
  else
    let vals := (values.filter validPointB).filterMap
      (fun v =>
        match v with
        | .num q => some q
        | .nan => none)
    { total := total
      valid := vi.length
      first_idx := vi.head?
      last_idx := vi.getLast?
      min := vals.min?
      max := vals.max?
      constant :=
        match vals.min?, vals.max? with
        | some a, some b => some (allcloseB a b)
        | _, _ => none
      not_assigned := not_assigned_count }

/-- How _write_plot_debug reports one series (source lines 521-541): a
series whose points are all sentinel is the distinct Not Assigned case;
mixed sentinel and valid data get the not_assigned-annotated line; all
other series get the plain statistics line. -/
inductive DebugClass where
  | allNotAssigned
  | mixedAssigned
  | plain
deriving DecidableEq, Repr

def debug_class (values : List PVal) : DebugClass :=
  let s := series_stats values
  if s.not_assigned = values.length then .allNotAssigned
  else if 0 < s.not_assigned ∧ 0 < s.valid then .mixedAssigned
  else .plain

/-! Generic association-list lemmas. -/

lemma assocFind_append_single {κ β : Type} [DecidableEq κ] (k k' : κ) (v : β)
    (l : List (κ × β)) :
    assocFind k (l ++ [(k', v)]) =
      match assocFind k l with
      | some x => some x
      | none => if k' = k then some v else none := by
  induction l with
  | nil => simp [assocFind]
  | cons p rest ih =>
    by_cases hp : p.1 = k
    · simp [assocFind, hp]
    · simpa [assocFind, hp] using ih

lemma assocFind_update {κ β : Type} [DecidableEq κ] (k k' : κ) (f : β → β)
    (l : List (κ × β)) :
    assocFind k (assocUpdate k' f l) =
      if k' = k then (assocFind k l).map f else assocFind k l := by
  induction l with
  | nil => by_cases hk : k' = k <;> simp [assocFind, assocUpdate, hk]
  | cons p rest ih =>
    rw [assocUpdate]
    by_cases hp : p.1 = k'
    · rw [if_pos hp]
      by_cases hk : p.1 = k
      · have hk' : k' = k := hp ▸ hk
        simp [assocFind, hk, hk']
      · have hk' : ¬ k' = k := fun h => hk (h ▸ hp)
        simp [assocFind, hk, hk']
    · rw [if_neg hp]
      by_cases hk : p.1 = k
      · have hk' : ¬ k' = k := fun h => hp (hk.trans h.symm)
        simp [assocFind, hk, hk']
      · simp only [assocFind, if_neg hk]
        exact ih

lemma assocFind_eq_none_iff {κ β : Type} [DecidableEq κ] (k : κ) (l : List (κ × β)) :
    assocFind k l = none ↔ ∀ p ∈ l, p.1 ≠ k := by
  induction l with
  | nil => simp [assocFind]
  | cons p rest ih =>
    by_cases hp : p.1 = k
    · simp [assocFind, hp]
    · rw [assocFind, if_neg hp, ih]
      constructor
      · intro h q hq
        rcases List.mem_cons.mp hq with rfl | hq2
        · exact hp
        · exact h q hq2
      · intro h q hq
        exact h q (List.mem_cons_of_mem _ hq)

lemma assocUpdate_keys {κ β : Type} [DecidableEq κ] (k : κ) (f : β → β)
    (l : List (κ × β)) :
    (assocUpdate k f l).map Prod.fst = l.map Prod.fst := by
  induction l with
  | nil => rfl
  | cons p rest ih =>
    by_cases hp : p.1 = k <;> simp [assocUpdate, hp, ih]

lemma assocUpdate_pred {κ β : Type} [DecidableEq κ] (Q : κ × β → Prop) (k : κ)
    (f : β → β) (l : List (κ × β)) (hl : ∀ p ∈ l, Q p)
    (hf : ∀ a b, Q (a, b) → Q (a, f b)) :
    ∀ p ∈ assocUpdate k f l, Q p := by
  induction l with
  | nil => simp [assocUpdate]
  | cons p rest ih =>
    by_cases hp : p.1 = k
    · intro q hq
      rw [assocUpdate, if_pos hp] at hq
      rcases List.mem_cons.mp hq with h | h
      · subst h; exact hf p.1 p.2 (hl p (List.mem_cons_self _ _))
      · exact hl q (List.mem_cons_of_mem _ h)
    · intro q hq
      rw [assocUpdate, if_neg hp] at hq
      rcases List.mem_cons.mp hq with h | h
      · subst h; exact hl q (List.mem_cons_self _ _)
      · exact ih (fun r hr => hl r (List.mem_cons_of_mem _ hr)) q h

/-! Properties of the deduplication fold. -/

lemma mergeStats_time (ex s : RdKafkaStats) : (mergeStats ex s).time = ex.time := rfl

lemma dedupFold_cons_none (s : RdKafkaStats) (rest : List RdKafkaStats)
    (seen : List (Int × RdKafkaStats)) (hs : s.time = none) :
    dedupFold (s :: rest) seen = dedupFold rest seen := by
  rw [dedupFold, hs]

lemma dedupFold_cons_some (s : RdKafkaStats) (rest : List RdKafkaStats)
    (seen : List (Int × RdKafkaStats)) (t : Int) (hs : s.time = some t) :
    dedupFold (s :: rest) seen =
      match assocFind t seen with
      | some _ => dedupFold rest (assocUpdate t (fun ex => mergeStats ex s) seen)
      | none => dedupFold rest (seen ++ [(t, s)]) := by
  rw [dedupFold, hs]

lemma dedupFold_timed (l : List RdKafkaStats) :
    ∀ seen, (∀ p ∈ seen, p.2.time = some p.1) →
      ∀ p ∈ dedupFold l seen, p.2.time = some p.1 := by
  induction l with
  | nil => intro seen hseen; simpa [dedupFold] using hseen
  | cons s rest ih =>
    intro seen hseen
    rcases hs : s.time with _ | t
    · rw [dedupFold_cons_none s rest seen hs]; exact ih seen hseen
    · rw [dedupFold_cons_some s rest seen t hs]
      rcases hf : assocFind t seen with _ | ex
      · refine ih _ (fun p hp => ?_)
        rcases List.mem_append.mp hp with h | h
        · exact hseen p h
        · rcases List.mem_singleton.mp h with rfl; exact hs
      · refine ih _ (assocUpdate_pred _ t _ seen hseen (fun a b hq => ?_))
        simpa [mergeStats_time] using hq

lemma dedupFold_keys_nodup (l : List RdKafkaStats) :
    ∀ seen, ((seen.map Prod.fst : List Int)).Nodup →
      ((dedupFold l seen).map Prod.fst).Nodup := by
  induction l with
  | nil => intro seen hseen; simpa [dedupFold] using hseen
  | cons s rest ih =>
    intro seen hseen
    rcases hs : s.time with _ | t
    · rw [dedupFold_cons_none s rest seen hs]; exact ih seen hseen
    · rw [dedupFold_cons_some s rest seen t hs]
      rcases hf : assocFind t seen with _ | ex
      · refine ih _ ?_
        have ht : ∀ p ∈ seen, Prod.fst p ≠ t := (assocFind_eq_none_iff t seen).mp hf
        simp only [List.map_append, List.map_cons, List.map_nil]
        rw [List.nodup_append]
        refine ⟨hseen, List.nodup_singleton _, ?_⟩
        intro a ha h1
        rcases List.mem_singleton.mp h1 with rfl
        rcases List.mem_map.mp ha with ⟨p, hp, hpa⟩
        exact ht p hp hpa
      · refine ih _ ?_
        rw [assocUpdate_keys]; exact hseen

/-! Non-negativity of the derived rates (claim C2). -/

lemma timeDeltaStep_pos (lastTime t : Int) : 0 < timeDeltaStep lastTime t := by
  unfold timeDeltaStep
  split
  · next hc => omega
  · omega

lemma rx_rate_aux_nonneg (bk : String) :
    ∀ (l : List RdKafkaStats) (lastC : Option Int) (lastT : Int),
      (rx_rate_aux bk lastC lastT l).Forall
        (fun v => ∃ q : Rat, v = PVal.num q ∧ 0 ≤ q) := by
  intro l
  induction l with
  | nil => intro lastC lastT; simp [rx_rate_aux]
  | cons s rest ih =>
    intro lastC lastT
    simp only [rx_rate_aux, List.forall_cons]
    constructor
    · refine ⟨_, rfl, ?_⟩
      have hdelta : (0 : Int) ≤
          (match lastC with
           | some prev =>
             if prev ≤ (match brokerLookup bk s with
                        | some b => b.rxbytes
                        | none => 0) then
               (match brokerLookup bk s with
                | some b => b.rxbytes
                | none => 0) - prev
             else 0
           | none => 0) := by
        rcases lastC with _ | prev
        · simp
        · split
          · next hle => omega
          · omega
      have htd : (0 : Rat) < ((timeDeltaStep lastT (s.time.getD 0) : Int) : Rat) := by
        exact_mod_cast timeDeltaStep_pos lastT (s.time.getD 0)
      refine div_nonneg (div_nonneg ?_ (le_of_lt htd)) (by norm_num)
      exact_mod_cast hdelta
    · exact ih _ _

lemma tx_rate_aux_nonneg (bk : String) :
    ∀ (l : List RdKafkaStats) (lastC : Option Int) (lastT : Int),
      (tx_rate_aux bk lastC lastT l).Forall
        (fun v => ∃ q : Rat, v = PVal.num q ∧ 0 ≤ q) := by
  intro l
  induction l with
  | nil => intro lastC lastT; simp [tx_rate_aux]
  | cons s rest ih =>
    intro lastC lastT
    simp only [tx_rate_aux, List.forall_cons]
    constructor
    · refine ⟨_, rfl, ?_⟩
      have hdelta : (0 : Int) ≤
          (match lastC with
           | some prev =>
             if prev ≤ (match brokerLookup bk s with
                        | some b => b.txbytes
                        | none => 0) then
               (match brokerLookup bk s with
                | some b => b.txbytes
                | none => 0) - prev
             else 0
           | none => 0) := by
        rcases lastC with _ | prev
        · simp
        · split
          · next hle => omega
          · omega
      have htd : (0 : Rat) < ((timeDeltaStep lastT (s.time.getD 0) : Int) : Rat) := by
        exact_mod_cast timeDeltaStep_pos lastT (s.time.getD 0)
      refine div_nonneg (div_nonneg ?_ (le_of_lt htd)) (by norm_num)
      exact_mod_cast hdelta
    · exact ih _ _

/-- Claim C2: rate derivation takes delta = current - previous only when a
previous counter exists and current >= previous, and 0 otherwise (the
definition of rx_rate_aux and tx_rate_aux), hence every value of every
broker's rx_rate and tx_rate series is a numeric, non-negative rate, never
negative even across counter resets. -/
theorem c2_rates_nonneg (bk : String) (pl : List RdKafkaStats) :
    (rx_rate_series bk pl).Forall (fun v => ∃ q : Rat, v = PVal.num q ∧ 0 ≤ q) ∧
    (tx_rate_series bk pl).Forall (fun v => ∃ q : Rat, v = PVal.num q ∧ 0 ≤ q) :=
  ⟨rx_rate_aux_nonneg bk pl none _, tx_rate_aux_nonneg bk pl none _⟩

/-- Claim C10: with no previously seen counter (last counter None) the
first delta is 0 whatever the counter value, so the first element of every
universe broker's rate series is exactly 0 and never a gap marker. -/
theorem c10_first_rate_zero (pl : List RdKafkaStats) (bk : String)
    (hmem : bk ∈ all_broker_keys pl) :
    (rx_rate_series bk pl).head? = some (PVal.num 0) ∧
    (tx_rate_series bk pl).head? = some (PVal.num 0) := by
  rcases pl with _ | ⟨s, rest⟩
  · simp [all_broker_keys] at hmem
  · constructor
    · simp [rx_rate_series, rx_rate_aux, zero_div]
    · simp [tx_rate_series, tx_rate_aux, zero_div]

/-- The broker observed at time=100 with rxbytes 1,000,000 (spec scenario
for the rate computation). -/
def s100 : RdKafkaStats :=
  { ts := some 1, time := some 100, type := some ("consumer"),
    brokers := [(("b1"),
      { name := some ("b1"), source := none, state := none, connects := 0,
        disconnects := 0, rxbytes := 1000000, txbytes := 0, rxerrs := 0,
        txerrs := 0, req_timeouts := 0, rtt_avg := none, throttle_avg := none })],
    topics := [] }

/-- The same broker at time=160 with rxbytes 2,048,000. -/
def s160 : RdKafkaStats :=
  { ts := some 2, time := some 160, type := some ("consumer"),
    brokers := [(("b1"),
      { name := some ("b1"), source := none, state := none, connects := 0,
        disconnects := 0, rxbytes := 2048000, txbytes := 0, rxerrs := 0,
        txerrs := 0, req_timeouts := 0, rtt_avg := none, throttle_avg := none })],
    topics := [] }

/-- Witness for c10_first_rate_zero at the concrete two-snapshot history. -/
theorem c10_first_rate_zero_witness :
    (("b1") ∈ all_broker_keys [s100, s160]) ∧
    ((rx_rate_series ("b1") [s100, s160]).head? = some (PVal.num 0) ∧
     (tx_rate_series ("b1") [s100, s160]).head? = some (PVal.num 0)) :=
  ⟨by decide, c10_first_rate_zero [s100, s160] ("b1") (by decide)⟩

set_option maxRecDepth 20000 in
/-- Claim C9, refutation of the stated approximation: the RX rate at the
second timestamp is exactly (2048000-1000000)/60/(1024*1024) MiB/s, but
that value is 3275/196608, about 0.01666, which differs from the claimed
approximation 0.1665 by more than 0.1. -/
theorem c9_rx_rate_counterexample :
    ((get_time_series_data [s100, s160]).bind
        (fun b => assocFind ("b1") b.brokers)).map (fun bs => bs.rx_rate) =
      some [PVal.num 0, PVal.num ((2048000 - 1000000) / 60 / (1024 * 1024))] ∧
    (1 : Rat) / 10 < |(2048000 - 1000000) / 60 / (1024 * 1024) - 1665 / 10000| := by
  constructor
  · have h1 : ((get_time_series_data [s100, s160]).bind
        (fun b => assocFind ("b1") b.brokers)).map (fun bs => bs.rx_rate) =
        some (rx_rate_series ("b1") (plottable [s100, s160])) := rfl
    have h2 : plottable [s100, s160] = [s100, s160] := rfl
    rw [h1, h2]
    simp only [rx_rate_series, rx_rate_aux, s100, s160, brokerLookup, assocFind, timeDeltaStep]
    norm_num
  · rw [abs_of_nonpos (by norm_num)]
    norm_num

set_option maxRecDepth 20000 in
/-- Claim C9 as amended: for the two snapshots at time=100 and time=160
with rxbytes 1,000,000 then 2,048,000, the RX rate at the second timestamp
index equals (2048000-1000000)/60/(1024*1024) MiB/s, which is approximately
0.0167 MiB/s (the spec's 0.1665 misplaces the decimal point). -/
theorem c9_rx_rate_amended :
    ((get_time_series_data [s100, s160]).bind
        (fun b => assocFind ("b1") b.brokers)).map (fun bs => bs.rx_rate) =
      some [PVal.num 0, PVal.num ((2048000 - 1000000) / 60 / (1024 * 1024))] ∧
    (166 / 10000 : Rat) < (2048000 - 1000000) / 60 / (1024 * 1024) ∧
    ((2048000 - 1000000 : Rat) / 60 / (1024 * 1024)) < 167 / 10000 := by
  refine ⟨?_, by norm_num, by norm_num⟩
  have h1 : ((get_time_series_data [s100, s160]).bind
      (fun b => assocFind ("b1") b.brokers)).map (fun bs => bs.rx_rate) =
      some (rx_rate_series ("b1") (plottable [s100, s160])) := rfl
  have h2 : plottable [s100, s160] = [s100, s160] := rfl
  rw [h1, h2]
  simp only [rx_rate_series, rx_rate_aux, s100, s160, brokerLookup, assocFind, timeDeltaStep]
  norm_num

/-! Rate series never contain the gap marker (claim C3). -/

lemma rx_rate_aux_num (bk : String) :
    ∀ (l : List RdKafkaStats) (lastC : Option Int) (lastT : Int) (i : Nat),
      i < l.length →
      ∃ q : Rat, (rx_rate_aux bk lastC lastT l)[i]? = some (PVal.num q) := by
  intro l
  induction l with
  | nil => intro _ _ i hi; simp at hi
  | cons s rest ih =>
    intro lastC lastT i hi
    simp only [rx_rate_aux]
    rcases i with _ | j
    · exact ⟨_, List.getElem?_cons_zero⟩
    · simpa using ih _ _ j (by simpa using hi)

lemma tx_rate_aux_num (bk : String) :
    ∀ (l : List RdKafkaStats) (lastC : Option Int) (lastT : Int) (i : Nat),
      i < l.length →
      ∃ q : Rat, (tx_rate_aux bk lastC lastT l)[i]? = some (PVal.num q) := by
  intro l
  induction l with
  | nil => intro _ _ i hi; simp at hi
  | cons s rest ih =>
    intro lastC lastT i hi
    simp only [tx_rate_aux]
    rcases i with _ | j
    · exact ⟨_, List.getElem?_cons_zero⟩
    · simpa using ih _ _ j (by simpa using hi)

/-- Claim C3 as amended: for a snapshot missing a universe broker, the
rtt, state, throttle, connects, disconnects, rxerrs and txerrs series do
get a gap marker at that index, but rx_rate and tx_rate do not: they
always hold a numeric value (the absent broker's counter reads as 0, which
yields a zero delta for non-negative counters).  For a universe
topic-partition missing from a snapshot, all five partition series get a
gap marker at that index, as claimed. -/
theorem c3_gap_markers_amended (pl : List RdKafkaStats) (bk tk pk : String)
    (i : Nat) (s : RdKafkaStats) (hi : pl[i]? = some s) :
    (brokerLookup bk s = none →
      (rtt_series bk pl)[i]? = some PVal.nan ∧
      (state_series bk pl)[i]? = some PVal.nan ∧
      (throttle_series bk pl)[i]? = some PVal.nan ∧
      (connects_series bk pl)[i]? = some PVal.nan ∧
      (disconnects_series bk pl)[i]? = some PVal.nan ∧
      (rxerrs_series bk pl)[i]? = some PVal.nan ∧
      (txerrs_series bk pl)[i]? = some PVal.nan ∧
      (∃ q : Rat, (rx_rate_series bk pl)[i]? = some (PVal.num q)) ∧
      (∃ q : Rat, (tx_rate_series bk pl)[i]? = some (PVal.num q))) ∧
    (partAt tk pk s = none →
      (lag_series tk pk pl)[i]? = some PVal.nan ∧
      (lag_stored_series tk pk pl)[i]? = some PVal.nan ∧
      (committed_series tk pk pl)[i]? = some PVal.nan ∧
      (stored_series tk pk pl)[i]? = some PVal.nan ∧
      (leader_epoch_series tk pk pl)[i]? = some PVal.nan) := by
  have hlen : i < pl.length := (List.getElem?_eq_some_iff.mp hi).1
  constructor
  · intro hb
    refine ⟨?_, ?_, ?_, ?_, ?_, ?_, ?_, ?_, ?_⟩
    · simp [rtt_series, List.getElem?_map, hi, rttAt, hb]
    · simp [state_series, List.getElem?_map, hi, stateAt, hb]
    · simp [throttle_series, List.getElem?_map, hi, throttleAt, hb]
    · simp [connects_series, List.getElem?_map, hi, connectsAt, hb]
    · simp [disconnects_series, List.getElem?_map, hi, disconnectsAt, hb]
    · simp [rxerrs_series, List.getElem?_map, hi, rxerrsAt, hb]
    · simp [txerrs_series, List.getElem?_map, hi, txerrsAt, hb]
    · exact rx_rate_aux_num bk pl none _ i hlen
    · exact tx_rate_aux_num bk pl none _ i hlen
  · intro hp
    refine ⟨?_, ?_, ?_, ?_, ?_⟩
    · simp [lag_series, List.getElem?_map, hi, lagAt, hp]
    · simp [lag_stored_series, List.getElem?_map, hi, lagStoredAt, hp]
    · simp [committed_series, List.getElem?_map, hi, committedAt, hp]
    · simp [stored_series, List.getElem?_map, hi, storedAt, hp]
    · simp [leader_epoch_series, List.getElem?_map, hi, leaderEpochAt, hp]

/-- A broker present only in the first snapshot, with a topic-partition
present only in the first snapshot as well. -/
def cexA : RdKafkaStats :=
  { ts := some 10, time := some 100, type := some ("consumer"),
    brokers := [(("b1"),
      { name := some ("b1"), source := some ("real"), state := some ("UP"),
        connects := 1, disconnects := 0, rxbytes := 100, txbytes := 50,
        rxerrs := 0, txerrs := 0, req_timeouts := 0, rtt_avg := some 1000,
        throttle_avg := none })],
    topics := [(("t1"),
      { topic := some ("t1"),
        partitions := [(("0"),
          { partition := some 0, leader := some 1, consumer_lag := 5,
            consumer_lag_stored := 5, committed_offset := 10,
            stored_offset := 10, committed_leader_epoch := 1 })] })] }

/-- The second snapshot, with the broker and the partition absent. -/
def cexB : RdKafkaStats :=
  { ts := some 20, time := some 160, type := some ("consumer"),
    brokers := [], topics := [] }

set_option maxRecDepth 20000 in
/-- Claim C3, refutation at a concrete input: broker b1 is in the universe
and absent from the second snapshot, the rtt series has a gap marker at
index 1, but the rx_rate series holds the number 0 there, not a gap
marker. -/
theorem c3_gap_markers_counterexample :
    (("b1") ∈ all_broker_keys [cexA, cexB]) ∧
    brokerLookup ("b1") cexB = none ∧
    (rtt_series ("b1") [cexA, cexB])[1]? = some PVal.nan ∧
    (rx_rate_series ("b1") [cexA, cexB])[1]? = some (PVal.num 0) ∧
    (rx_rate_series ("b1") [cexA, cexB])[1]? ≠ some PVal.nan ∧
    (tx_rate_series ("b1") [cexA, cexB])[1]? = some (PVal.num 0) ∧
    (tx_rate_series ("b1") [cexA, cexB])[1]? ≠ some PVal.nan := by
  refine ⟨by decide, rfl, rfl, ?_, by decide, ?_, by decide⟩
  · simp only [rx_rate_series, rx_rate_aux, cexA, cexB, brokerLookup, assocFind, timeDeltaStep]
    norm_num
  · simp only [tx_rate_series, tx_rate_aux, cexA, cexB, brokerLookup, assocFind, timeDeltaStep]
    norm_num

set_option maxRecDepth 20000 in
/-- Witness for c3_gap_markers_amended at the concrete two-snapshot
history, instantiating both implications. -/
theorem c3_gap_markers_witness :
    ([cexA, cexB][1]? = some cexB ∧ brokerLookup ("b1") cexB = none ∧
      partAt ("t1") ("t1-0") cexB = none) ∧
    ((rtt_series ("b1") [cexA, cexB])[1]? = some PVal.nan ∧
      (∃ q : Rat, (rx_rate_series ("b1") [cexA, cexB])[1]? = some (PVal.num q)) ∧
      (lag_series ("t1") ("t1-0") [cexA, cexB])[1]? = some PVal.nan) := by
  refine ⟨⟨rfl, rfl, rfl⟩, ?_, ?_, ?_⟩
  · exact ((c3_gap_markers_amended [cexA, cexB] ("b1") ("t1") ("t1-0") 1 cexB rfl).1 rfl).1
  · exact ((c3_gap_markers_amended [cexA, cexB] ("b1") ("t1") ("t1-0") 1 cexB rfl).1 rfl).2.2.2.2.2.2.2.1
  · exact ((c3_gap_markers_amended [cexA, cexB] ("b1") ("t1") ("t1-0") 1 cexB rfl).2 rfl).1

/-! Sentinel handling in the series diagnostics (claim C5). -/

lemma valid_idx_from_length (l : List PVal) :
    ∀ i : Nat, (valid_idx_from i l).length = l.countP validPointB := by
  induction l with
  | nil => intro i; simp [valid_idx_from]
  | cons v rest ih =>
    intro i
    by_cases hv : validPointB v <;>
      simp [valid_idx_from, hv, List.countP_cons, ih]

lemma sentinel_not_valid (v : PVal) (h : isSentinelB v = true) :
    validPointB v = false := by
  rcases v with _ | q
  · rfl
  · simp only [isSentinelB, Bool.or_eq_true, decide_eq_true_eq, PVal.num.injEq] at h
    rcases h with h | h <;> simp [validPointB, h]

/-- Claim C5: a point is valid only when it is neither the gap marker nor
one of the sentinels -1 and -1001; a series whose points are all sentinel
has valid = 0, not_assigned equal to the point count, no constant flag,
and is reported by the plot debug as fully Not Assigned. -/
theorem c5_sentinel_diagnostics (values : List PVal) :
    (series_stats values).valid = values.countP validPointB ∧
    (values ≠ [] → values.all isSentinelB = true →
      (series_stats values).valid = 0 ∧
      (series_stats values).not_assigned = values.length ∧
      (series_stats values).constant = none ∧
      debug_class values = DebugClass.allNotAssigned) := by
  have hlen : (valid_idx values).length = values.countP validPointB :=
    valid_idx_from_length values 0
  constructor
  · by_cases hv : (valid_idx values).isEmpty
    · have h0 : (valid_idx values).length = 0 := by
        rw [List.isEmpty_iff.mp hv]; rfl
      simp [series_stats, hv, ← hlen, h0]
    · simp [series_stats, hv, hlen]
  · intro hne hall
    have hallmem : ∀ v ∈ values, isSentinelB v = true := List.all_eq_true.mp hall
    have hcount : values.countP validPointB = 0 := by
      rw [List.countP_eq_zero]
      intro v hv
      simp [sentinel_not_valid v (hallmem v hv)]
    have hvi : (valid_idx values).isEmpty := by
      rw [List.isEmpty_iff, ← List.length_eq_zero]
      rw [hlen, hcount]
    have hna : (series_stats values).not_assigned = values.length := by
      simp only [series_stats, hvi, if_true]
      exact List.countP_eq_length.mpr hallmem
    refine ⟨by simp [series_stats, hvi], hna, by simp [series_stats, hvi], ?_⟩
    simp [debug_class, hna]

/-- Witness for c5_sentinel_diagnostics on a series of two -1001 points. -/
theorem c5_sentinel_diagnostics_witness :
    (([PVal.num (-1001), PVal.num (-1001)] : List PVal) ≠ [] ∧
      ([PVal.num (-1001), PVal.num (-1001)] : List PVal).all isSentinelB = true) ∧
    ((series_stats [PVal.num (-1001), PVal.num (-1001)]).valid = 0 ∧
     (series_stats [PVal.num (-1001), PVal.num (-1001)]).not_assigned =
       ([PVal.num (-1001), PVal.num (-1001)] : List PVal).length ∧
     (series_stats [PVal.num (-1001), PVal.num (-1001)]).constant = none ∧
     debug_class [PVal.num (-1001), PVal.num (-1001)] = DebugClass.allNotAssigned) :=
  ⟨⟨by decide, by decide⟩,
    (c5_sentinel_diagnostics [PVal.num (-1001), PVal.num (-1001)]).2
      (by decide) (by decide)⟩

/-- Claim C7, refutation: the input [] is itself a valid JSON document,
yet the loader recovers zero snapshots from it (the empty-array branch)
without raising, so zero recovery does not imply that no valid JSON
document exists anywhere in the input. -/
theorem c7_loader_counterexample :
    parse_stage (("[]").data) = [] ∧
    loads (("[]").data) = some (Json.jarr []) ∧
    load_stats (("[]").data) = [] ∧
    load_history (("[]").data) = some [] :=
  ⟨rfl, rfl, rfl, rfl⟩

/-- Claim C7 as amended, against the crash-aware loader (none models the
uncaught AttributeError of RdKafkaStats on a non-dict value): the loader
returns an empty history, without raising, exactly when the whole input
parses as the empty JSON array, or whole-input parsing fails and no
complete JSON value can be decoded at the first scan position; when
whole-input parsing fails and the first decoded value constructs a
snapshot (a JSON object), extraction keeps that snapshot and continues,
stopping quietly at the first undecodable position with everything
collected so far; but when a decoded value is not a JSON object, snapshot
construction raises and the loader returns nothing. -/
theorem c7_loader_amended (cs : List Char) :
    (load_history cs = some [] ↔
      (loads cs = some (Json.jarr []) ∨
       (loads cs = none ∧ (lstrip cs = [] ∨ rawDecode (lstrip cs) = none)))) ∧
    (loads cs = none → ∀ (j : Json) (n : Nat) (s : RdKafkaStats),
      rawDecode (lstrip cs) = some (j, n) → RdKafkaStats.ofJson? j = some s →
      load_history cs =
        (extractSnapshots cs cs.length
            ((lstrip cs).length - ((lstrip cs).drop n).length)).map
          (fun rest => s :: rest)) ∧
    (loads cs = none → ∀ (j : Json) (n : Nat),
      rawDecode (lstrip cs) = some (j, n) → RdKafkaStats.ofJson? j = none →
      load_history cs = none) := by
  rcases hl : loads cs with _ | j
  · have hps : load_history cs = extractSnapshots cs (cs.length + 1) 0 := by
      rw [load_history, hl]
    have hstep : extractSnapshots cs (cs.length + 1) 0 =
        if 0 < cs.length then
          (if (lstrip cs).isEmpty then some []
           else
             match rawDecode (lstrip cs) with
             | none => some []
             | some (obj, readLen) =>
               match RdKafkaStats.ofJson? obj with
               | none => none
               | some s =>
                 (extractSnapshots cs cs.length
                     (0 + ((lstrip cs).length - ((lstrip cs).drop readLen).length))).map
                   (fun rest => s :: rest))
        else some [] := by
      rw [extractSnapshots]
      simp [lstrip]
    refine ⟨?_, ?_, ?_⟩
    · rw [hps, hstep]
      by_cases hempty : cs.length = 0
      · have hcs : cs = [] := List.length_eq_zero.mp hempty
        subst hcs
        simp [lstrip]
      · rw [if_pos (Nat.pos_of_ne_zero hempty)]
        by_cases hstrip : (lstrip cs).isEmpty
        · rw [if_pos hstrip]
          simp [hl, List.isEmpty_iff.mp hstrip]
        · rw [if_neg hstrip]
          rcases hd : rawDecode (lstrip cs) with _ | ⟨obj, readLen⟩
          · simp [hl, hd]
          · rcases hof : RdKafkaStats.ofJson? obj with _ | s0
            · simp [hl, hd, hof, List.isEmpty_iff] at hstrip ⊢
              exact hstrip
            · rcases hrec : extractSnapshots cs cs.length
                  (0 + ((lstrip cs).length - ((lstrip cs).drop readLen).length)) with _ | rest
              · simp [hl, hd, hof, hrec, List.isEmpty_iff] at hstrip ⊢
                exact hstrip
              · simp [hl, hd, hof, hrec, List.isEmpty_iff] at hstrip ⊢
                exact hstrip
    · intro _ j n s hd hof
      have hne : lstrip cs ≠ [] := by
        intro h
        rw [h] at hd
        exact Option.noConfusion hd
      have hlen : 0 < cs.length := by
        rcases cs with _ | ⟨c, rest⟩
        · exact absurd rfl hne
        · simp
      have hstep2 : extractSnapshots cs (cs.length + 1) 0 =
          match RdKafkaStats.ofJson? j with
          | none => none
          | some s0 =>
            (extractSnapshots cs cs.length
                (0 + ((lstrip cs).length - ((lstrip cs).drop n).length))).map
              (fun rest => s0 :: rest) := by
        rw [hstep, if_pos hlen,
          if_neg (by simpa [List.isEmpty_iff] using hne), hd]
      rw [hps, hstep2, hof]
      simp [Nat.zero_add]
    · intro _ j n hd hof
      have hne : lstrip cs ≠ [] := by
        intro h
        rw [h] at hd
        exact Option.noConfusion hd
      have hlen : 0 < cs.length := by
        rcases cs with _ | ⟨c, rest⟩
        · exact absurd rfl hne
        · simp
      have hstep2 : extractSnapshots cs (cs.length + 1) 0 =
          match RdKafkaStats.ofJson? j with
          | none => none
          | some s0 =>
            (extractSnapshots cs cs.length
                (0 + ((lstrip cs).length - ((lstrip cs).drop n).length))).map
              (fun rest => s0 :: rest) := by
        rw [hstep, if_pos hlen,
          if_neg (by simpa [List.isEmpty_iff] using hne), hd]
      rw [hps, hstep2, hof]
  · refine ⟨?_, ?_, ?_⟩
    · rcases j with _ | b | n0 | st | xs | kvs
      · rcases hof : RdKafkaStats.ofJson? Json.null with _ | s0 <;>
          simp [load_history, hl, hof]
      · rcases hof : RdKafkaStats.ofJson? (Json.jbool b) with _ | s0 <;>
          simp [load_history, hl, hof]
      · rcases hof : RdKafkaStats.ofJson? (Json.jnum n0) with _ | s0 <;>
          simp [load_history, hl, hof]
      · rcases hof : RdKafkaStats.ofJson? (Json.jstr st) with _ | s0 <;>
          simp [load_history, hl, hof]
      · rcases xs with _ | ⟨x, xs2⟩
        · simp [load_history, hl, optTraverse]
        · rw [load_history, hl]
          constructor
          · intro hcon
            exfalso
            rcases hof : RdKafkaStats.ofJson? x with _ | s0
            · simp only [optTraverse, hof] at hcon
              exact Option.noConfusion hcon
            · simp only [optTraverse, hof] at hcon
              rcases hrec : optTraverse RdKafkaStats.ofJson? xs2 with _ | rest <;>
                rw [hrec] at hcon <;> simp at hcon
          · intro hcon
            rcases hcon with hcon | hcon
            · simp at hcon
            · exact Option.noConfusion hcon.1
      · rcases hof : RdKafkaStats.ofJson? (Json.jobj kvs) with _ | s0 <;>
          simp [load_history, hl, hof]
    · intro h; exact absurd h (by simp)
    · intro h; exact absurd h (by simp)

/-- Witness for c7_loader_amended, at one input whose first decoded value
is an object (collection continues past it and stops quietly at the
undecodable x) and at the input 1 x, where the decoded non-dict value 1
makes snapshot construction raise and the loader return nothing. -/
theorem c7_loader_amended_witness :
    (loads (("\x7b\"time\":1\x7d x").data) = none ∧
     rawDecode (lstrip (("\x7b\"time\":1\x7d x").data)) =
       some (Json.jobj [(("time"), Json.jnum 1)], 10) ∧
     RdKafkaStats.ofJson? (Json.jobj [(("time"), Json.jnum 1)]) =
       some { ts := none, time := some 1, type := none, brokers := [], topics := [] } ∧
     load_history (("\x7b\"time\":1\x7d x").data) =
       (extractSnapshots (("\x7b\"time\":1\x7d x").data)
           (("\x7b\"time\":1\x7d x").data).length
           ((lstrip (("\x7b\"time\":1\x7d x").data)).length -
             ((lstrip (("\x7b\"time\":1\x7d x").data)).drop 10).length)).map
         (fun rest =>
           { ts := none, time := some 1, type := none, brokers := [], topics := [] } :: rest)) ∧
    (loads (("1 x").data) = none ∧
     rawDecode (lstrip (("1 x").data)) = some (Json.jnum 1, 1) ∧
     RdKafkaStats.ofJson? (Json.jnum 1) = none ∧
     load_history (("1 x").data) = none) :=
  ⟨⟨rfl, rfl, rfl,
    (c7_loader_amended (("\x7b\"time\":1\x7d x").data)).2.1 rfl
      (Json.jobj [(("time"), Json.jnum 1)]) 10
      { ts := none, time := some 1, type := none, brokers := [], topics := [] } rfl rfl⟩,
   ⟨rfl, rfl, rfl,
    (c7_loader_amended (("1 x").data)).2.2 rfl (Json.jnum 1) 1 rfl rfl⟩⟩

/-! Invariants of the loaded snapshot sequence (claims C6 and C8). -/

lemma sort_and_dedup_mem_timed (h : List RdKafkaStats) :
    ∀ s ∈ sort_and_dedup h, s.time.isSome = true := by
  intro s hs
  have hs2 : s ∈ (dedupFold (sortByTs h) []).map Prod.snd :=
    (List.perm_insertionSort timeLe _).mem_iff.mp hs
  rcases List.mem_map.mp hs2 with ⟨p, hp, rfl⟩
  have := dedupFold_timed (sortByTs h) [] (by simp) p hp
  simp [this]

lemma sort_and_dedup_times_nodup (h : List RdKafkaStats) :
    ((sort_and_dedup h).map (fun s => s.time.getD 0)).Nodup := by
  have hperm : ((sort_and_dedup h).map (fun s => s.time.getD 0)).Perm
      (((dedupFold (sortByTs h) []).map Prod.snd).map (fun s => s.time.getD 0)) :=
    (List.perm_insertionSort timeLe _).map _
  rw [hperm.nodup_iff, List.map_map]
  have hcongr :
      (dedupFold (sortByTs h) []).map ((fun s => s.time.getD 0) ∘ Prod.snd) =
      (dedupFold (sortByTs h) []).map Prod.fst :=
    List.map_congr_left (fun p hp => by
      have := dedupFold_timed (sortByTs h) [] (by simp) p hp
      simp [this])
  rw [hcongr]
  exact dedupFold_keys_nodup (sortByTs h) [] (by simp)

lemma pairwise_timeLt_of_sorted (l : List RdKafkaStats)
    (hs : List.Sorted timeLe l)
    (hn : (l.map (fun s => s.time.getD 0)).Nodup) : List.Pairwise timeLt l := by
  have hne : l.Pairwise (fun a b => a.time.getD 0 ≠ b.time.getD 0) :=
    List.pairwise_map.mp hn
  exact (hs.and hne).imp (fun hab => lt_of_le_of_ne hab.1 hab.2)

lemma sort_and_dedup_pairwise_lt (h : List RdKafkaStats) :
    List.Pairwise timeLt (sort_and_dedup h) :=
  pairwise_timeLt_of_sorted _
    (List.sorted_insertionSort timeLe _)
    (sort_and_dedup_times_nodup h)

/-- Claim C6: after loading, every retained snapshot has a timestamp, and
the sequence is strictly increasing in epoch seconds (so sorted ascending
with no two snapshots sharing a timestamp). -/
theorem c6_load_invariant (content : List Char) :
    (load_stats content).Forall (fun s => s.time.isSome = true) ∧
    List.Pairwise timeLt (load_stats content) :=
  ⟨List.forall_iff_forall_mem.mpr (sort_and_dedup_mem_timed _),
   sort_and_dedup_pairwise_lt _⟩

lemma dedupFold_all_fresh :
    ∀ (l : List RdKafkaStats) (seen : List (Int × RdKafkaStats)),
      (∀ s ∈ l, s.time.isSome = true) →
      ((l.map (fun s => s.time.getD 0)).Nodup) →
      (∀ s ∈ l, assocFind (s.time.getD 0) seen = none) →
      dedupFold l seen = seen ++ l.map (fun s => (s.time.getD 0, s)) := by
  intro l
  induction l with
  | nil => intro seen _ _ _; simp [dedupFold]
  | cons s rest ih =>
    intro seen htimed hnodup hfresh
    rcases ht : s.time with _ | t
    · have := htimed s (List.mem_cons_self _ _)
      rw [ht] at this
      exact absurd this (by simp)
    · have hkey : s.time.getD 0 = t := by rw [ht]; rfl
      rw [dedupFold_cons_some s rest seen t ht]
      have hfs : assocFind t seen = none := hkey ▸ hfresh s (List.mem_cons_self _ _)
      rw [hfs]
      have hn2 : (∀ x ∈ rest, ¬ x.time.getD 0 = t) ∧
          ((rest.map (fun r => r.time.getD 0)).Nodup) := by
        simpa [hkey] using hnodup
      have hrest : dedupFold rest (seen ++ [(t, s)]) =
          (seen ++ [(t, s)]) ++ rest.map (fun r => (r.time.getD 0, r)) := by
        refine ih _ (fun r hr => htimed r (List.mem_cons_of_mem _ hr)) hn2.2
          (fun r hr => ?_)
        rw [assocFind_append_single]
        rw [hfresh r (List.mem_cons_of_mem _ hr)]
        have hne : ¬ t = r.time.getD 0 := fun hc => hn2.1 r hr hc.symm
        simp [hne]
      rw [hrest]
      simp [hkey, List.append_assoc]

/-- Claim C8: the sort-and-deduplicate pass is idempotent; re-running it
on its own output returns the output unchanged, and the second pass makes
every snapshot a fresh anchor, so no merges occur. -/
theorem c8_dedup_idempotent (h : List RdKafkaStats) :
    sort_and_dedup (sort_and_dedup h) = sort_and_dedup h ∧
    dedupFold (sortByTs (sort_and_dedup h)) [] =
      (sortByTs (sort_and_dedup h)).map (fun s => (s.time.getD 0, s)) := by
  have hT : ∀ s ∈ sort_and_dedup h, s.time.isSome = true := sort_and_dedup_mem_timed h
  have hN : ((sort_and_dedup h).map (fun s => s.time.getD 0)).Nodup :=
    sort_and_dedup_times_nodup h
  have hP : List.Pairwise timeLt (sort_and_dedup h) := sort_and_dedup_pairwise_lt h
  have hperm : (sortByTs (sort_and_dedup h)).Perm (sort_and_dedup h) :=
    List.perm_insertionSort tsLe _
  have h2T : ∀ s ∈ sortByTs (sort_and_dedup h), s.time.isSome = true :=
    fun s hs => hT s (hperm.mem_iff.mp hs)
  have h2N : ((sortByTs (sort_and_dedup h)).map (fun s => s.time.getD 0)).Nodup :=
    (hperm.map _).nodup_iff.mpr hN
  have hsecond : dedupFold (sortByTs (sort_and_dedup h)) [] =
      (sortByTs (sort_and_dedup h)).map (fun s => (s.time.getD 0, s)) := by
    have h0 := dedupFold_all_fresh (sortByTs (sort_and_dedup h)) [] h2T h2N
      (fun s _ => rfl)
    exact h0.trans (List.nil_append _)
  refine ⟨?_, hsecond⟩
  have hmapsnd : ((dedupFold (sortByTs (sort_and_dedup h)) []).map Prod.snd) =
      sortByTs (sort_and_dedup h) := by
    rw [hsecond, List.map_map]
    exact List.map_id _
  have hres : sort_and_dedup (sort_and_dedup h) =
      List.insertionSort timeLe (sortByTs (sort_and_dedup h)) := by
    rw [sort_and_dedup, hmapsnd]
  rw [hres]
  have hrpermflat : (List.insertionSort timeLe (sortByTs (sort_and_dedup h))).Perm
      (sort_and_dedup h) :=
    (List.perm_insertionSort timeLe _).trans hperm
  have hrN : ((List.insertionSort timeLe (sortByTs (sort_and_dedup h))).map
      (fun s => s.time.getD 0)).Nodup :=
    ((hrpermflat.map _).nodup_iff).mpr hN
  have hrP : List.Pairwise timeLt
      (List.insertionSort timeLe (sortByTs (sort_and_dedup h))) :=
    pairwise_timeLt_of_sorted _ (List.sorted_insertionSort timeLe _) hrN
  exact List.eq_of_perm_of_sorted hrpermflat hrP hP

/-! Merge semantics of the timestamp deduplication (claim C1). -/

/-- The anchor's entry survives a key conflict; a missing key takes the
newcomer's entry. -/
def anchorWins {β : Type} (oex onew : Option β) : Option β :=
  match oex with
  | some b => some b
  | none => onew

lemma foldl_add_missing_find {κ β : Type} [DecidableEq κ] :
    ∀ (st ex : List (κ × β)) (k : κ),
      assocFind k
          (st.foldl (fun acc p => if (assocFind p.1 acc).isSome then acc else acc ++ [p]) ex) =
        anchorWins (assocFind k ex) (assocFind k st) := by
  intro st
  induction st with
  | nil =>
    intro ex k
    rcases hf : assocFind k ex <;> simp [hf, assocFind, anchorWins]
  | cons p st' ih =>
    rcases p with ⟨pk, pv⟩
    intro ex k
    simp only [List.foldl_cons]
    rcases hp : assocFind pk ex with _ | b
    · simp only [Option.isSome_none, Bool.false_eq_true, if_false]
      rw [ih (ex ++ [(pk, pv)]) k, assocFind_append_single]
      by_cases hk : pk = k
      · have hke : assocFind k ex = none := hk ▸ hp
        simp [hke, hk, assocFind, anchorWins]
      · rcases hke : assocFind k ex with _ | c <;>
          simp [hke, hk, assocFind, anchorWins]
    · simp only [Option.isSome_some, if_true]
      rw [ih ex k]
      by_cases hk : pk = k
      · have hke : assocFind k ex = some b := hk ▸ hp
        simp [hke, anchorWins]
      · rcases hke : assocFind k ex with _ | c <;>
          simp [hke, hk, assocFind, anchorWins]

/-- Folding later same-key topic entries into an optional anchor topic:
the anchor absorbs each later entry by adding only its missing
partitions. -/
def mergeTopicChain (o : Option TopicStats) (l : List TopicStats) : Option TopicStats :=
  l.foldl
    (fun acc tnew =>
      match acc with
      | some et => some (mergeTopicStats et tnew)
      | none => some tnew)
    o

lemma mergeTopics_find :
    ∀ (st ex : List (String × TopicStats)) (tk : String),
      assocFind tk (mergeTopics ex st) =
        mergeTopicChain (assocFind tk ex)
          ((st.filter (fun p => decide (p.1 = tk))).map Prod.snd) := by
  intro st
  induction st with
  | nil =>
    intro ex tk
    simp [mergeTopics, mergeTopicChain]
  | cons p st' ih =>
    rcases p with ⟨pk, pv⟩
    intro ex tk
    have hunfold : mergeTopics ex ((pk, pv) :: st') =
        mergeTopics
          (match assocFind pk ex with
           | none => ex ++ [(pk, pv)]
           | some _ => assocUpdate pk (fun t => mergeTopicStats t pv) ex)
          st' := by
      rfl
    rw [hunfold]
    rcases hp : assocFind pk ex with _ | et
    · rw [ih (ex ++ [(pk, pv)]) tk, assocFind_append_single]
      by_cases hk : pk = tk
      · have hke : assocFind tk ex = none := hk ▸ hp
        simp [hke, hk, List.filter_cons, mergeTopicChain]
      · rcases hke : assocFind tk ex with _ | c <;>
          simp [hke, hk, List.filter_cons, mergeTopicChain]
    · rw [ih _ tk, assocFind_update]
      by_cases hk : pk = tk
      · have hke : assocFind tk ex = some et := hk ▸ hp
        simp [hke, hk, List.filter_cons, mergeTopicChain]
      · rcases hke : assocFind tk ex with _ | c <;>
          simp [hke, hk, List.filter_cons, mergeTopicChain]

lemma dedupFold_find (t : Int) :
    ∀ (l : List RdKafkaStats) (seen : List (Int × RdKafkaStats)),
      assocFind t (dedupFold l seen) =
        match assocFind t seen with
        | some ex =>
          some ((l.filter (fun s => decide (s.time = some t))).foldl mergeStats ex)
        | none =>
          match l.filter (fun s => decide (s.time = some t)) with
          | [] => none
          | a :: rest => some (rest.foldl mergeStats a) := by
  intro l
  induction l with
  | nil =>
    intro seen
    rcases hf : assocFind t seen <;> simp [dedupFold, hf]
  | cons s rest ih =>
    intro seen
    rcases ht : s.time with _ | t'
    · rw [dedupFold_cons_none s rest seen ht, ih seen]
      have hfilt : List.filter (fun s => decide (s.time = some t)) (s :: rest) =
          List.filter (fun s => decide (s.time = some t)) rest := by
        simp [List.filter_cons, ht]
      rw [hfilt]
    · rw [dedupFold_cons_some s rest seen t' ht]
      by_cases htt : t' = t
      · subst htt
        have hfilt : List.filter (fun s => decide (s.time = some t')) (s :: rest) =
            s :: List.filter (fun s => decide (s.time = some t')) rest := by
          simp [List.filter_cons, ht]
        rcases hf : assocFind t' seen with _ | ex
        · rw [ih (seen ++ [(t', s)]), assocFind_append_single, hf, hfilt]
          simp [hf]
        · rw [ih _, assocFind_update, hf, hfilt]
          simp [hf]
      · have hfilt : List.filter (fun s => decide (s.time = some t)) (s :: rest) =
            List.filter (fun s => decide (s.time = some t)) rest := by
          simp [List.filter_cons, ht, htt]
        rcases hf : assocFind t' seen with _ | ex
        · rw [ih (seen ++ [(t', s)]), assocFind_append_single, hfilt]
          rcases hke : assocFind t seen with _ | c <;> simp [hke, htt]
        · rw [ih _, assocFind_update, hfilt]
          rcases hke : assocFind t seen with _ | c <;> simp [hke, htt]

/-- The spec's duplicate-timestamp scenario: two consumer records at
time=100, the first carrying only the logical bootstrap broker, the second
carrying only topic t1 partition 0 with consumer lag 5. -/
def scenarioC1 : String :=
  "\x7b\"ts\":1,\"time\":100,\"type\":\"consumer\",\"brokers\":\x7b\"b1/bootstrap\":\x7b\"source\":\"logical\"\x7d\x7d,\"topics\":\x7b\x7d\x7d\x7b\"ts\":2,\"time\":100,\"type\":\"consumer\",\"brokers\":\x7b\x7d,\"topics\":\x7b\"t1\":\x7b\"partitions\":\x7b\"0\":\x7b\"partition\":0,\"consumer_lag\":5\x7d\x7d\x7d\x7d\x7d"

set_option maxRecDepth 40000 in
/-- Claim C1: each snapshot group with one timestamp folds into the
earliest-in-sort-order anchor; merging adds only missing broker ids
(anchor wins), only missing topics, and within shared topics only missing
partition ids (anchor wins, no overwrite); and the spec's two-object
scenario at time=100 deduplicates to exactly one snapshot carrying both
the logical bootstrap broker and topic t1 partition 0 with lag 5. -/
theorem c1_dedup_merge :
    (∀ (h : List RdKafkaStats) (t : Int),
      assocFind t (dedupFold (sortByTs h) []) =
        match (sortByTs h).filter (fun s => decide (s.time = some t)) with
        | [] => none
        | a :: rest => some (rest.foldl mergeStats a)) ∧
    (∀ (ex st : RdKafkaStats) (bk : String),
      brokerLookup bk (mergeStats ex st) =
        anchorWins (brokerLookup bk ex) (brokerLookup bk st)) ∧
    (∀ (ex st : List (String × PartitionStats)) (pk : String),
      assocFind pk (mergePartitions ex st) =
        anchorWins (assocFind pk ex) (assocFind pk st)) ∧
    (∀ (ex st : RdKafkaStats) (tk : String),
      assocFind tk (mergeStats ex st).topics =
        mergeTopicChain (assocFind tk ex.topics)
          ((st.topics.filter (fun p => decide (p.1 = tk))).map Prod.snd)) ∧
    ((load_stats scenarioC1.data).map (fun s => s.time) = [some 100] ∧
     ((load_stats scenarioC1.data).head?.bind
         (fun s => brokerLookup ("b1/bootstrap") s)).map (fun b => b.source) =
       some (some ("logical")) ∧
     ((load_stats scenarioC1.data).head?.bind
         (fun s => (assocFind ("t1") s.topics).bind
           (fun tp => assocFind ("0") tp.partitions))).map
         (fun p => p.consumer_lag) = some 5) := by
  refine ⟨?_, ?_, ?_, ?_, by decide, by decide, by decide⟩
  · intro h t
    rw [dedupFold_find t (sortByTs h) []]
    rfl
  · intro ex st bk
    exact foldl_add_missing_find st.brokers ex.brokers bk
  · intro ex st pk
    exact foldl_add_missing_find st ex pk
  · intro ex st tk
    exact mergeTopics_find st.topics ex.topics tk

/-- Claim C4: the builder returns None exactly when fewer than two
timestamped snapshots survive loading and deduplication (every survivor is
timestamped, so the count is the length); with two or more it returns a
bundle whose timestamp list aligns with the timestamped snapshots. -/
theorem c4_insufficient_data (content : List Char) :
    (get_time_series_data (load_stats content) = none ↔
      (load_stats content).countP (fun s => s.time.isSome) < 2) ∧
    (2 ≤ (load_stats content).countP (fun s => s.time.isSome) →
      ∃ b : Bundle, get_time_series_data (load_stats content) = some b ∧
        b.timestamps = (plottable (load_stats content)).map (fun s => s.time.getD 0)) := by
  have hall : ∀ s ∈ load_stats content, s.time.isSome = true :=
    sort_and_dedup_mem_timed _
  have hcount : (load_stats content).countP (fun s => s.time.isSome) =
      (load_stats content).length :=
    List.countP_eq_length.mpr hall
  constructor
  · rw [hcount]
    by_cases hlt : (load_stats content).length < 2
    · simp [get_time_series_data, hlt]
    · simp [get_time_series_data, hlt]
  · intro h2
    have hnot : ¬ (load_stats content).length < 2 := by
      rw [hcount] at h2; omega
    have hsome : get_time_series_data (load_stats content) =
        some { timestamps := (plottable (load_stats content)).map (fun s => s.time.getD 0)
               client_type :=
                 match plottable (load_stats content) with
                 | [] => some ("unknown")
                 | s :: _ => s.type
               brokers := (all_broker_keys (plottable (load_stats content))).map
                 (fun bk => (bk, mkBrokerSeries bk (plottable (load_stats content))))
               topics := (all_topic_keys (plottable (load_stats content))).map
                 (fun tk =>
                   (tk, ((all_partition_keys (plottable (load_stats content))).filter
                       (fun pk => tk.isPrefixOf pk)).map
                     (fun pk => (pk, mkPartSeries tk pk (plottable (load_stats content)))))) } := by
      rw [get_time_series_data, if_neg hnot]
    exact ⟨_, hsome, rfl⟩

/-- A two-snapshot input for the builder witness. -/
def c4content : String := "[\x7b\"time\":1\x7d,\x7b\"time\":2\x7d]"

set_option maxRecDepth 40000 in
/-- Witness for c4_insufficient_data at a two-snapshot input. -/
theorem c4_insufficient_data_witness :
    (2 ≤ (load_stats (c4content.data)).countP (fun s => s.time.isSome)) ∧
    (∃ b : Bundle, get_time_series_data (load_stats (c4content.data)) = some b ∧
      b.timestamps = (plottable (load_stats (c4content.data))).map (fun s => s.time.getD 0)) :=
  ⟨by decide, (c4_insufficient_data (c4content.data)).2 (by decide)⟩
